import Mathlib

/-!
Shallow embedding of `lib/repository_pool.c` (xbps repository pool).

The C unit keeps three pieces of process-wide state: the queue of
registered repositories (`rpool_queue`, a SIMPLEQ of `struct
repository_pool`), the flag `repolist_initialized`, and — through the
global handle `xhp` — the configured repository list `xhp->repos_array`.
We model the state explicitly and the external collaborators
(`prop_array_iterator`, `xbps_pkg_index_plist`, `sync_remote_repo`'s
fetch, `malloc`, `prop_string_cstring`,
`prop_dictionary_internalize_from_zfile`) as an environment of oracles,
each returning either success or an errno value, exactly at the call
sites where the C consults them.

`prop_object_release(xhp->repos_array)` on the success path of
`xbps_repository_pool_init` destroys the configured array but leaves the
handle field set (a dangling pointer).  We track the pointer field
(`repos_array`) and the liveness of the pointed-to object (`repos_live`)
separately; an access to the released object (`prop_array_count` /
`prop_array_iterator` on a dead array) has no defined C behaviour, so
`pool_init` returns `none` there and `some (rv, st)` on every defined
path.
-/

namespace RepoPool

/-- errno ENOENT ("not found"), the value tested at line 192 of the C. -/
def ENOENT : Int := 2

/-- errno ENOTSUP ("unsupported"), returned when no repository is usable. -/
def ENOTSUP : Int := 95

/-- The internalized index dictionary is opaque to this unit; any
inhabitant stands for one `prop_dictionary_t`. -/
abbrev Dict := Nat

/-- Outcomes of the external collaborators, per call site.  A failing
collaborator sets `errno`; we record that value in the `error`
constructor. -/
structure Env where
  /-- The value `un.machine` as reported by `uname`. -/
  hostArch : String
  /-- Call `xbps_pkg_index_plist(repouri)`: local index path, or NULL with errno. -/
  plistOf : String → Except Int String
  /-- Whether `sync_remote_repo(plist, repouri) == 0`: the artifact is present or
  was fetched; `false` models the `-1` return. -/
  syncOk : String → String → Bool
  /-- Call `malloc(sizeof(struct repository_pool))` at this location. -/
  mallocRpool : String → Except Int Unit
  /-- Call `malloc(sizeof(struct repository_pool_index))` at this location. -/
  mallocRpi : String → Except Int Unit
  /-- Call `prop_string_cstring(obj)`: duplicate the URI string. -/
  dupUri : String → Except Int Unit
  /-- Call `prop_dictionary_internalize_from_zfile(plist)`: the index value, or
  NULL with errno (`ENOENT` = index file missing). -/
  internalize : String → Except Int Dict
  /-- Call `prop_array_iterator(xhp->repos_array)`: NULL with errno on failure. -/
  iter : Except Int Unit

/-- One registered repository: `struct repository_pool_index`
(`rpi_uri`, `rpi_repod`). -/
structure Entry where
  rpi_uri : String
  rpi_repod : Dict
deriving DecidableEq, Repr

/-- The unit's process-wide state: the queue, the flag, the handle's
`repos_array` field (`none` = NULL pointer), and whether the array object
the field points to is still alive. -/
structure PoolState where
  rpool_queue : List Entry
  repolist_initialized : Bool
  repos_array : Option (List String)
  repos_live : Bool
deriving DecidableEq, Repr

/-- The characters after the last '/' of the list, or `none` when no '/'
occurs (`strrchr(uri, '/')` returning NULL). -/
def afterLastSlash : List Char → Option (List Char)
  | [] => none
  | c :: cs =>
    match afterLastSlash cs with
    | some r => some r
    | none => if c = '/' then some cs else none

/-- Predicate `check_repo_arch`: the last component of the URI is "noarch" or the
host architecture; a URI without '/' or with an empty last component does
not match. -/
def check_repo_arch (hostArch uri : String) : Bool :=
  match afterLastSlash uri.toList with
  | none => false
  | some p =>
    if p = [] then false
    else if p = "noarch".toList then true
    else if p = hostArch.toList then true
    else false

/-- The dedup scan at lines 125-130: some registered entry has this URI. -/
def isDupRepo (q : List Entry) (uri : String) : Bool :=
  q.any fun e => e.rpi_uri = uri

/-- Outcome of the `while` loop of `xbps_repository_pool_init`: either a
fatal `goto out` with `rv` and the queue as built so far, or normal exit
with the queue and the counters `ntotal`, `nmissing`. -/
inductive LoopRes where
  | fatal (rv : Int) (q : List Entry)
  | done (q : List Entry) (ntotal nmissing : Nat)
deriving DecidableEq, Repr

/-- The per-location loop (lines 119-208), one step per configured URI,
threading the queue and both counters. -/
def initLoop (env : Env) : List String → List Entry → Nat → Nat → LoopRes
  | [], q, t, m => .done q t m
  | uri :: rest, q, t, m =>
    if isDupRepo q uri then
      initLoop env rest q t m
    else if ¬ check_repo_arch env.hostArch uri then
      initLoop env rest q (t + 1) (m + 1)
    else
      match env.plistOf uri with
      | .error e => .fatal e q
      | .ok plist =>
        if ¬ env.syncOk plist uri then
          initLoop env rest q (t + 1) (m + 1)
        else
          match env.mallocRpool uri with
          | .error e => .fatal e q
          | .ok _ =>
            match env.mallocRpi uri with
            | .error e => .fatal e q
            | .ok _ =>
              match env.dupUri uri with
              | .error e => .fatal e q
              | .ok _ =>
                match env.internalize plist with
                | .error e =>
                  if e = ENOENT then
                    initLoop env rest q (t + 1) (m + 1)
                  else .fatal e q
                | .ok d =>
                  initLoop env rest (q ++ [⟨uri, d⟩]) (t + 1) m

/-- Function `xbps_repository_pool_release`: a no-op unless
`repolist_initialized`; otherwise empty the queue (freeing every entry)
and clear the flag.  The handle's `repos_array` field is not touched. -/
def pool_release (st : PoolState) : PoolState :=
  if st.repolist_initialized then
    { st with rpool_queue := [], repolist_initialized := false }
  else st

/-- Function `xbps_repository_pool_init`.  Returns `none` when the C would read
the already-released configured array (undefined behaviour), otherwise
`some (rv, st')`. -/
def pool_init (env : Env) (st : PoolState) : Option (Int × PoolState) :=
  match st.repos_array with
  | none => some (ENOTSUP, st)
  | some repos =>
    if st.repolist_initialized then some (0, st)
    else if ¬ st.repos_live then none
    else if repos.length = 0 then some (ENOTSUP, st)
    else
      match env.iter with
      | .error e => some (e, pool_release st)
      | .ok _ =>
        match initLoop env repos st.rpool_queue 0 0 with
        | .fatal e q => some (e, pool_release { st with rpool_queue := q })
        | .done q t m =>
          if t - m = 0 then
            some (ENOTSUP, pool_release { st with rpool_queue := q })
          else
            some (0, { st with rpool_queue := q,
                               repolist_initialized := true,
                               repos_live := false })

/-- The SIMPLEQ_FOREACH_SAFE traversal of `xbps_repository_pool_foreach`
(lines 274-278) with a callback that does not mutate the queue:
`fn rpi arg` yields the updated `arg`, the status `rv`, and the value
stored through `done`.  Besides `(rv, arg)` we also record the list of
entries the callback was invoked on. -/
def foreachVisits {σ : Type} (fn : Entry → σ → σ × Int × Bool) :
    List Entry → σ → Int × σ × List Entry
  | [], s => (0, s, [])
  | e :: rest, s =>
    let r := fn e s
    if r.2.1 ≠ 0 ∨ r.2.2 = true then (r.2.1, r.1, [e])
    else
      let r' := foreachVisits fn rest r.1
      (r'.1, r'.2.1, e :: r'.2.2)

/-- Function `xbps_repository_pool_foreach`: initialize the pool, propagate a
non-zero `rv` (visiting nothing), otherwise traverse the queue. -/
def pool_foreach {σ : Type} (env : Env) (fn : Entry → σ → σ × Int × Bool)
    (arg : σ) (st : PoolState) : Option (Int × σ × PoolState × List Entry) :=
  match pool_init env st with
  | none => none
  | some (rv, st') =>
    if rv ≠ 0 then some (rv, arg, st', [])
    else
      let r := foreachVisits fn st'.rpool_queue arg
      some (r.1, r.2.1, st', r.2.2)

/-- A queue node with an identity, for reasoning about the traversal
when the callback unlinks and frees the node it is visiting: `nid` stands
for the node's address, `rpi` for its payload. -/
structure RNode where
  nid : Nat
  rpi : Entry
deriving DecidableEq, Repr

/-- SIMPLEQ_FOREACH_SAFE with a callback that may additionally remove
the entry it is currently visiting (`fn`'s last component `true` =
"unlink and free the current node before returning").  The macro loads
`rpool_new = SIMPLEQ_NEXT(rpool)` before invoking the body and resumes
from that saved reference, so the continuation is taken on `rest`
regardless of the removal; the returned queue reflects the removals.
Result: `(rv, arg, visited node ids, final queue)`. -/
def foreachSafeRem {σ : Type} (fn : Entry → σ → σ × Int × Bool × Bool) :
    List RNode → σ → Int × σ × List Nat × List RNode
  | [], s => (0, s, [], [])
  | cur :: rest, s =>
    let r := fn cur.rpi s
    if r.2.1 ≠ 0 ∨ r.2.2.1 = true then
      (r.2.1, r.1, [cur.nid], if r.2.2.2 then rest else cur :: rest)
    else
      let r' := foreachSafeRem fn rest r.1
      (r'.1, r'.2.1, cur.nid :: r'.2.2.1,
        if r.2.2.2 then r'.2.2.2 else cur :: r'.2.2.2)

/-- Along this run, no callback invocation returns a non-zero status or
sets the stop flag (threading the context through the calls). -/
def neverStops {σ : Type} (fn : Entry → σ → σ × Int × Bool) :
    List Entry → σ → Prop
  | [], _ => True
  | e :: rest, s =>
    (fn e s).2.1 = 0 ∧ (fn e s).2.2 = false ∧ neverStops fn rest (fn e s).1

/-- Along this run of the removal-capable traversal, no callback
invocation returns a non-zero status or sets the stop flag. -/
def neverStopsRem {σ : Type} (fn : Entry → σ → σ × Int × Bool × Bool) :
    List RNode → σ → Prop
  | [], _ => True
  | n :: rest, s =>
    (fn n.rpi s).2.1 = 0 ∧ (fn n.rpi s).2.2.1 = false ∧
      neverStopsRem fn rest (fn n.rpi s).1

/-- A fresh process state: empty queue, flag down, configured list
`cfg` installed and alive. -/
def st0 (cfg : List String) : PoolState := ⟨[], false, some cfg, true⟩

/-- An environment in which every collaborator succeeds; the host
architecture is "x86" and every index internalizes to the dictionary 7. -/
def envG : Env where
  hostArch := "x86"
  plistOf := fun u => .ok (u ++ ".plist")
  syncOk := fun _ _ => true
  mallocRpool := fun _ => .ok ()
  mallocRpi := fun _ => .ok ()
  dupUri := fun _ => .ok ()
  internalize := fun _ => .ok 7
  iter := .ok ()

/-- A failing collaborator reports a non-zero errno (POSIX: library calls
set errno to a non-zero value on failure). -/
def Env.WF (env : Env) : Prop :=
  (∀ u e, env.plistOf u = .error e → e ≠ 0) ∧
  (∀ u e, env.mallocRpool u = .error e → e ≠ 0) ∧
  (∀ u e, env.mallocRpi u = .error e → e ≠ 0) ∧
  (∀ u e, env.dupUri u = .error e → e ≠ 0) ∧
  (∀ p e, env.internalize p = .error e → e ≠ 0) ∧
  (∀ e, env.iter = .error e → e ≠ 0)

theorem envG_wf : envG.WF := by
  refine ⟨?_, ?_, ?_, ?_, ?_, ?_⟩
  · intro _ _ h; simp [envG] at h
  · intro _ _ h; simp [envG] at h
  · intro _ _ h; simp [envG] at h
  · intro _ _ h; simp [envG] at h
  · intro _ _ h; simp [envG] at h
  · intro _ h; simp [envG] at h

/-- A normally terminating loop only appends entries, and the counters
record exactly the appended (`app`) and the missing (`mis`) locations:
`t' = t + app.length + mis`, `m' = m + mis`. -/
theorem initLoop_done_shape (env : Env) :
    ∀ (cfg : List String) (q : List Entry) (t m : Nat) (q' : List Entry) (t' m' : Nat),
      initLoop env cfg q t m = .done q' t' m' →
      ∃ app mis, q' = q ++ app ∧ t' = t + app.length + mis ∧ m' = m + mis := by
  intro cfg
  induction cfg with
  | nil =>
    intro q t m q' t' m' h
    simp only [initLoop] at h
    cases h
    exact ⟨[], 0, by simp⟩
  | cons uri rest ih =>
    intro q t m q' t' m' h
    simp only [initLoop] at h
    split at h
    · exact ih q t m q' t' m' h
    · split at h
      · obtain ⟨app, mis, h1, h2, h3⟩ := ih q (t + 1) (m + 1) q' t' m' h
        exact ⟨app, mis + 1, h1, by omega, by omega⟩
      · split at h
        · cases h
        · split at h
          · obtain ⟨app, mis, h1, h2, h3⟩ := ih q (t + 1) (m + 1) q' t' m' h
            exact ⟨app, mis + 1, h1, by omega, by omega⟩
          · split at h
            · cases h
            · split at h
              · cases h
              · split at h
                · cases h
                · split at h
                  · split at h
                    · obtain ⟨app, mis, h1, h2, h3⟩ := ih q (t + 1) (m + 1) q' t' m' h
                      exact ⟨app, mis + 1, h1, by omega, by omega⟩
                    · cases h
                  · rename_i d _
                    obtain ⟨app, mis, h1, h2, h3⟩ :=
                      ih (q ++ [⟨uri, d⟩]) (t + 1) m q' t' m' h
                    exact ⟨⟨uri, d⟩ :: app, mis, by simp [h1], by simp at h2 ⊢; omega, h3⟩

/-- A fatal loop exit carries an errno reported by one of the per-location
collaborators, and never the `ENOENT` of a deserialization (that one is
absorbed at lines 192-198). -/
theorem initLoop_fatal_src (env : Env) :
    ∀ (cfg : List String) (q : List Entry) (t m : Nat) (e : Int) (q' : List Entry),
      initLoop env cfg q t m = .fatal e q' →
      (∃ u, env.plistOf u = .error e) ∨ (∃ u, env.mallocRpool u = .error e) ∨
      (∃ u, env.mallocRpi u = .error e) ∨ (∃ u, env.dupUri u = .error e) ∨
      (∃ p, env.internalize p = .error e ∧ e ≠ ENOENT) := by
  intro cfg
  induction cfg with
  | nil =>
    intro q t m e q' h
    simp only [initLoop] at h
    cases h
  | cons uri rest ih =>
    intro q t m e q' h
    simp only [initLoop] at h
    split at h
    · exact ih q t m e q' h
    · split at h
      · exact ih q (t + 1) (m + 1) e q' h
      · split at h
        · rename_i e0 heq
          cases h
          exact .inl ⟨uri, heq⟩
        · rename_i plist heq
          split at h
          · exact ih q (t + 1) (m + 1) e q' h
          · split at h
            · rename_i e0 heq2
              cases h
              exact .inr (.inl ⟨uri, heq2⟩)
            · split at h
              · rename_i e0 heq3
                cases h
                exact .inr (.inr (.inl ⟨uri, heq3⟩))
              · split at h
                · rename_i e0 heq4
                  cases h
                  exact .inr (.inr (.inr (.inl ⟨uri, heq4⟩)))
                · split at h
                  · rename_i e0 heq5
                    split at h
                    · exact ih q (t + 1) (m + 1) e q' h
                    · rename_i hne
                      cases h
                      exact .inr (.inr (.inr (.inr ⟨plist, heq5, hne⟩)))
                  · rename_i d heq6
                    exact ih (q ++ [⟨uri, d⟩]) (t + 1) m e q' h

/-- With well-formed collaborators a fatal loop exit carries a non-zero
errno. -/
theorem initLoop_fatal_ne_zero (env : Env) (hwf : env.WF) (cfg : List String)
    (q : List Entry) (t m : Nat) (e : Int) (q' : List Entry)
    (h : initLoop env cfg q t m = .fatal e q') : e ≠ 0 := by
  rcases initLoop_fatal_src env cfg q t m e q' h with
    ⟨u, hu⟩ | ⟨u, hu⟩ | ⟨u, hu⟩ | ⟨u, hu⟩ | ⟨p, hp, _⟩
  · exact hwf.1 u e hu
  · exact hwf.2.1 u e hu
  · exact hwf.2.2.1 u e hu
  · exact hwf.2.2.2.1 u e hu
  · exact hwf.2.2.2.2.1 p e hp

/-- The dedup scan keeps the registered URIs pairwise distinct. -/
theorem initLoop_nodup (env : Env) :
    ∀ (cfg : List String) (q : List Entry) (t m : Nat) (q' : List Entry) (t' m' : Nat),
      (q.map Entry.rpi_uri).Nodup →
      initLoop env cfg q t m = .done q' t' m' →
      (q'.map Entry.rpi_uri).Nodup := by
  intro cfg
  induction cfg with
  | nil =>
    intro q t m q' t' m' hq h
    simp only [initLoop] at h
    cases h
    exact hq
  | cons uri rest ih =>
    intro q t m q' t' m' hq h
    simp only [initLoop] at h
    split at h
    · exact ih q t m q' t' m' hq h
    · rename_i hdup
      split at h
      · exact ih q (t + 1) (m + 1) q' t' m' hq h
      · split at h
        · cases h
        · split at h
          · exact ih q (t + 1) (m + 1) q' t' m' hq h
          · split at h
            · cases h
            · split at h
              · cases h
              · split at h
                · cases h
                · split at h
                  · split at h
                    · exact ih q (t + 1) (m + 1) q' t' m' hq h
                    · cases h
                  · rename_i d _
                    refine ih (q ++ [⟨uri, d⟩]) (t + 1) m q' t' m' ?_ h
                    simp only [isDupRepo, List.any_eq_true, decide_eq_true_eq,
                      not_exists, not_and, Bool.not_eq_true] at hdup
                    simp only [List.map_append, List.map_cons, List.map_nil,
                      List.nodup_append, List.nodup_cons, List.nodup_nil]
                    refine ⟨hq, by simp, ?_⟩
                    intro a ha hb
                    simp only [List.mem_singleton] at hb
                    subst hb
                    simp only [List.mem_map] at ha
                    obtain ⟨en, hen, heq⟩ := ha
                    exact absurd heq (by simpa using hdup en hen)

/-- When no callback invocation stops the walk, the traversal returns 0
and visits every entry in queue order. -/
theorem foreachVisits_complete {σ : Type} (fn : Entry → σ → σ × Int × Bool) :
    ∀ (q : List Entry) (s : σ), neverStops fn q s →
      (foreachVisits fn q s).1 = 0 ∧ (foreachVisits fn q s).2.2 = q := by
  intro q
  induction q with
  | nil => intro s _; simp [foreachVisits]
  | cons e rest ih =>
    intro s h
    simp only [neverStops] at h
    obtain ⟨h1, h2, h3⟩ := h
    simp only [foreachVisits, h1, h2]
    simp [(ih _ h3).1, (ih _ h3).2]

/-- When no callback invocation stops the walk, the safe traversal visits
every node exactly once in queue order, whatever removals the callback
performs. -/
theorem foreachSafeRem_visits {σ : Type} (fn : Entry → σ → σ × Int × Bool × Bool) :
    ∀ (q : List RNode) (s : σ), neverStopsRem fn q s →
      (foreachSafeRem fn q s).2.2.1 = q.map RNode.nid := by
  intro q
  induction q with
  | nil => intro s _; simp [foreachSafeRem]
  | cons n rest ih =>
    intro s h
    simp only [neverStopsRem] at h
    obtain ⟨h1, h2, h3⟩ := h
    simp only [foreachSafeRem, h1, h2]
    simp [ih _ h3]

/-- When the flag is already up and the configured-list field is set,
`pool_init` returns 0 and the state untouched (lines 104-108). -/
theorem pool_init_already (env : Env) (st : PoolState) (cfg : List String)
    (h1 : st.repos_array = some cfg) (h2 : st.repolist_initialized = true) :
    pool_init env st = some (0, st) := by
  simp [pool_init, h1, h2]

/-- Shape of a successful `pool_init` under well-formed collaborators:
the flag ends up, the configured-list field is untouched, a fresh build
leaves the configured array released, and an already-initialized pool is
returned unchanged. -/
theorem pool_init_success_shape (env : Env) (st st' : PoolState)
    (hwf : env.WF) (h : pool_init env st = some (0, st')) :
    st'.repolist_initialized = true ∧ st'.repos_array = st.repos_array ∧
      (st.repolist_initialized = false → st'.repos_live = false) ∧
      (st.repolist_initialized = true → st' = st) := by
  cases harr : st.repos_array with
  | none =>
    simp [pool_init, harr, ENOTSUP] at h
  | some cfg =>
    cases hin : st.repolist_initialized with
    | true =>
      simp only [pool_init, harr, hin, if_true] at h
      simp only [Option.some.injEq, Prod.mk.injEq, true_and] at h
      subst h
      exact ⟨hin, harr, by simp [hin], fun _ => rfl⟩
    | false =>
      cases hlive : st.repos_live with
      | false =>
        simp [pool_init, harr, hin, hlive] at h
      | true =>
        by_cases hlen : cfg.length = 0
        · simp [pool_init, harr, hin, hlive, hlen, ENOTSUP] at h
        · cases hit : env.iter with
          | error e =>
            simp [pool_init, harr, hin, hlive, hlen, hit] at h
            exact absurd h.1 (hwf.2.2.2.2.2 e hit)
          | ok u =>
            cases hloop : initLoop env cfg st.rpool_queue 0 0 with
            | fatal e q =>
              simp [pool_init, harr, hin, hlive, hlen, hit, hloop] at h
              exact absurd h.1
                (initLoop_fatal_ne_zero env hwf cfg st.rpool_queue 0 0 e q hloop)
            | done q t m =>
              by_cases htm : t - m = 0
              · simp [pool_init, harr, hin, hlive, hlen, hit, hloop, htm,
                  ENOTSUP] at h
              · simp [pool_init, harr, hin, hlive, hlen, hit, hloop, htm] at h
                subst h
                simp

/-- Entry for repository "a/noarch" with index 7. -/
def eA : Entry := ⟨"a/noarch", 7⟩

/-- Entry for repository "b/noarch" with index 7. -/
def eB : Entry := ⟨"b/noarch", 7⟩

/-- Entry for repository "c/noarch" with index 7. -/
def eC : Entry := ⟨"c/noarch", 7⟩

/-- The state after a successful build from `st0 ["a/noarch"]` under
`envG`: one entry, flag up, configured array released. -/
def stA : PoolState := ⟨[eA], true, some ["a/noarch"], false⟩

/-- The state after a successful build from the three-location
configuration under `envG`. -/
def stABC : PoolState :=
  ⟨[eA, eB, eC], true, some ["a/noarch", "b/noarch", "c/noarch"], false⟩

/-- A four-location configuration whose third index is corrupt under
`envC1`. -/
def cfg4 : List String := ["a/noarch", "b/noarch", "c/noarch", "d/noarch"]

/-- Collaborators that all succeed except that internalizing the index
of "c/noarch" fails with errno 5 (EIO, not ENOENT). -/
def envC1 : Env :=
  { envG with internalize := fun p =>
      if p = "c/noarch.plist" then .error 5 else .ok 7 }

/-- The state `pool_init envC1 (st0 cfg4)` actually leaves behind: the
two entries registered before the fatal failure are still queued while
the flag is down. -/
def stBad : PoolState := ⟨[eA, eB], false, some cfg4, true⟩

/-- Collaborators in which resolving a local index path fails with
errno ENOENT. -/
def envC9 : Env := { envG with plistOf := fun _ => .error ENOENT }

/-- C4: build() is idempotent.  Whenever the initialized flag is already
true (and the configured-list field is set, as in every reachable
flag-up state), `pool_init` returns success with the state — registry,
flag and configuration — unchanged, for every collaborator environment
(so no collaborator is consulted); consequently, after any successful
build, a second build under any environment succeeds and changes
nothing. -/
theorem build_idempotent :
    (∀ (env : Env) (st : PoolState) (cfg : List String),
        st.repos_array = some cfg → st.repolist_initialized = true →
        pool_init env st = some (0, st)) ∧
    (∀ (env envB : Env) (st st' : PoolState), env.WF →
        pool_init env st = some (0, st') →
        pool_init envB st' = some (0, st')) := by
  constructor
  · exact fun env st cfg h1 h2 => pool_init_already env st cfg h1 h2
  · intro env envB st st' hwf h
    obtain ⟨hflag, harr, -, -⟩ := pool_init_success_shape env st st' hwf h
    cases hc : st.repos_array with
    | none => simp [pool_init, hc, ENOTSUP] at h
    | some cfg => exact pool_init_already envB st' cfg (harr.trans hc) hflag

/-- Witness for C4 at the one-location configuration: the second build
returns success and the unchanged state. -/
theorem build_idempotent_witness :
    stA.repos_array = some ["a/noarch"] ∧ stA.repolist_initialized = true ∧
      pool_init envG stA = some (0, stA) ∧ envG.WF ∧
      pool_init envG (st0 ["a/noarch"]) = some (0, stA) ∧
      pool_init envG stA = some (0, stA) :=
  ⟨rfl, rfl, build_idempotent.1 envG stA ["a/noarch"] rfl rfl, envG_wf,
    by decide, build_idempotent.2 envG envG (st0 ["a/noarch"]) stA envG_wf (by decide)⟩

/-- C10, counterexample: after a successful build() and a release(), a
further build() does not return "unsupported" — the handle field still
points at the configured array that the successful build released, so
the rebuild attempt reads a destroyed object (modelled as `none`,
undefined behaviour), not `some (ENOTSUP, _)`. -/
theorem lifecycle_oneshot_counterexample :
    pool_init envG (st0 ["a/noarch"]) = some (0, stA) ∧
      pool_release stA = ⟨[], false, some ["a/noarch"], false⟩ ∧
      pool_init envG ⟨[], false, some ["a/noarch"], false⟩ = none := by
  refine ⟨by decide, by decide, by decide⟩

/-- C10 as amended: a successful fresh build() releases the configured
array and never clears or re-acquires the handle field; after a
subsequent release(), a further build() does not rebuild the Registry
from the configuration — it dereferences the already-released
configuration object (undefined behaviour) instead of returning
"unsupported". -/
theorem lifecycle_oneshot_amended :
    ∀ (env envB : Env) (st st' : PoolState), env.WF →
      st.repolist_initialized = false →
      pool_init env st = some (0, st') →
      st'.repos_array = st.repos_array ∧ st'.repos_live = false ∧
        pool_init envB (pool_release st') = none := by
  intro env envB st st' hwf hin h
  obtain ⟨hflag, harr, hfresh, -⟩ := pool_init_success_shape env st st' hwf h
  have hlive : st'.repos_live = false := hfresh hin
  refine ⟨harr, hlive, ?_⟩
  cases hc : st.repos_array with
  | none => simp [pool_init, hc, ENOTSUP] at h
  | some cfg =>
    have hrel : pool_release st' =
        { st' with rpool_queue := [], repolist_initialized := false } := by
      simp [pool_release, hflag]
    rw [hrel]
    simp [pool_init, harr, hc, hlive]

/-- Witness for the amended C10 at the one-location configuration. -/
theorem lifecycle_oneshot_amended_witness :
    envG.WF ∧ (st0 ["a/noarch"]).repolist_initialized = false ∧
      pool_init envG (st0 ["a/noarch"]) = some (0, stA) ∧
      (stA.repos_array = (st0 ["a/noarch"]).repos_array ∧
        stA.repos_live = false ∧ pool_init envG (pool_release stA) = none) :=
  ⟨envG_wf, rfl, by decide,
    lifecycle_oneshot_amended envG envG (st0 ["a/noarch"]) stA envG_wf rfl (by decide)⟩

/-- C9, counterexample: `xbps_pkg_index_plist` failing with errno ENOENT
is propagated by build() as-is, so build() can return a "not found"
error to its caller. -/
theorem build_notfound_counterexample :
    pool_init envC9 (st0 ["a/noarch"]) = some (ENOENT, st0 ["a/noarch"]) := by
  decide

/-- C9 as amended: every value build() returns is success, "unsupported",
or an errno reported by a collaborator — iterator acquisition, local
path resolution, an allocation, the URI duplication, or a deserialization
failure other than "not found"; a "not found" deserialization outcome is
absorbed and never surfaced, but a "not found" errno from the other
collaborators propagates as-is. -/
theorem build_return_codes_amended :
    ∀ (env : Env) (st st' : PoolState) (rv : Int),
      pool_init env st = some (rv, st') →
      rv = 0 ∨ rv = ENOTSUP ∨ env.iter = .error rv ∨
        (∃ u, env.plistOf u = .error rv) ∨ (∃ u, env.mallocRpool u = .error rv) ∨
        (∃ u, env.mallocRpi u = .error rv) ∨ (∃ u, env.dupUri u = .error rv) ∨
        (∃ p, env.internalize p = .error rv ∧ rv ≠ ENOENT) := by
  intro env st st' rv h
  cases harr : st.repos_array with
  | none =>
    simp [pool_init, harr] at h
    exact .inr (.inl h.1.symm)
  | some cfg =>
    cases hin : st.repolist_initialized with
    | true =>
      simp [pool_init, harr, hin] at h
      exact .inl h.1.symm
    | false =>
      cases hlive : st.repos_live with
      | false => simp [pool_init, harr, hin, hlive] at h
      | true =>
        by_cases hlen : cfg.length = 0
        · simp [pool_init, harr, hin, hlive, hlen] at h
          exact .inr (.inl h.1.symm)
        · cases hit : env.iter with
          | error e =>
            simp [pool_init, harr, hin, hlive, hlen, hit] at h
            exact .inr (.inr (.inl (by rw [h.1])))
          | ok u =>
            cases hloop : initLoop env cfg st.rpool_queue 0 0 with
            | fatal e q =>
              simp [pool_init, harr, hin, hlive, hlen, hit, hloop] at h
              have hsrc := initLoop_fatal_src env cfg st.rpool_queue 0 0 e q hloop
              rw [h.1] at hsrc
              exact .inr (.inr (.inr hsrc))
            | done q t m =>
              by_cases htm : t - m = 0
              · simp [pool_init, harr, hin, hlive, hlen, hit, hloop, htm] at h
                exact .inr (.inl h.1.symm)
              · simp [pool_init, harr, hin, hlive, hlen, hit, hloop, htm] at h
                exact .inl h.1.symm

/-- Witness for the amended C9: the ENOENT returned in the
counterexample environment is accounted for by the path-resolution
collaborator. -/
theorem build_return_codes_amended_witness :
    pool_init envC9 (st0 ["a/noarch"]) = some (2, st0 ["a/noarch"]) ∧
      (2 = (0 : Int) ∨ 2 = ENOTSUP ∨ envC9.iter = .error 2 ∨
        (∃ u, envC9.plistOf u = .error 2) ∨
        (∃ u, envC9.mallocRpool u = .error 2) ∨
        (∃ u, envC9.mallocRpi u = .error 2) ∨
        (∃ u, envC9.dupUri u = .error 2) ∨
        (∃ p, envC9.internalize p = .error 2 ∧ (2 : Int) ≠ ENOENT)) :=
  ⟨by decide, build_return_codes_amended envC9 (st0 ["a/noarch"])
    (st0 ["a/noarch"]) 2 (by decide)⟩

/-- C6: when, after processing every configured location, the counters
satisfy `total - missing = 0`, a fresh build fails with "unsupported"
and the Registry is left empty; in particular a single-location
configuration matching neither "noarch" nor the host architecture yields
"unsupported" and an empty Registry. -/
theorem build_all_missing_unsupported :
    (∀ (env : Env) (st : PoolState) (cfg : List String) (q' : List Entry)
        (t' m' : Nat),
        st.repos_array = some cfg → st.repolist_initialized = false →
        st.repos_live = true → st.rpool_queue = [] → env.iter = .ok () →
        initLoop env cfg [] 0 0 = .done q' t' m' → t' - m' = 0 →
        ∃ st', pool_init env st = some (ENOTSUP, st') ∧ st'.rpool_queue = []) ∧
      pool_init envG (st0 ["X/otherarch"]) =
        some (ENOTSUP, st0 ["X/otherarch"]) := by
  constructor
  · intro env st cfg q' t' m' harr hin hlive hq hit hloop htm
    by_cases hlen : cfg.length = 0
    · exact ⟨st, by simp [pool_init, harr, hin, hlive, hlen], hq⟩
    · obtain ⟨app, mis, h1, h2, h3⟩ :=
        initLoop_done_shape env cfg [] 0 0 q' t' m' hloop

      have happ : app = [] := by
        have : app.length = 0 := by omega
        simpa using this
      have hq' : q' = [] := by simp [h1, happ]
      have hloop' : initLoop env cfg st.rpool_queue 0 0 = .done q' t' m' := by
        rw [hq]; exact hloop
      refine ⟨pool_release { st with rpool_queue := q' }, ?_, ?_⟩
      · simp [pool_init, harr, hin, hlive, hlen, hit, hloop', htm]
      · simp [pool_release, hin, hq']
  · decide

/-- Witness for C6: the single wrong-architecture location drives the
general branch with `t' = m' = 1`. -/
theorem build_all_missing_unsupported_witness :
    initLoop envG ["X/otherarch"] [] 0 0 = .done [] 1 1 ∧
      (∃ st', pool_init envG (st0 ["X/otherarch"]) = some (ENOTSUP, st') ∧
        st'.rpool_queue = []) :=
  ⟨by decide, build_all_missing_unsupported.1 envG (st0 ["X/otherarch"])
    ["X/otherarch"] [] 1 1 rfl rfl rfl rfl rfl (by decide) (by decide)⟩

/-- C7: the Gateway traversal stops as soon as the callback sets the
stop flag or returns a non-zero status, visiting no further entry, and
returns that last status; when no invocation stops it, it visits every
entry and returns 0; and on an initialized pool `pool_foreach` is
exactly this traversal of the Registry. -/
theorem foreach_early_stop_spec :
    (∀ (σ : Type) (fn : Entry → σ → σ × Int × Bool) (e : Entry)
        (rest : List Entry) (s s' : σ) (rv : Int),
        fn e s = (s', rv, true) →
        foreachVisits fn (e :: rest) s = (rv, s', [e])) ∧
    (∀ (σ : Type) (fn : Entry → σ → σ × Int × Bool) (e : Entry)
        (rest : List Entry) (s s' : σ) (rv : Int), rv ≠ 0 →
        fn e s = (s', rv, false) →
        foreachVisits fn (e :: rest) s = (rv, s', [e])) ∧
    (∀ (σ : Type) (fn : Entry → σ → σ × Int × Bool) (e : Entry)
        (rest : List Entry) (s s' : σ),
        fn e s = (s', 0, false) →
        foreachVisits fn (e :: rest) s =
          ((foreachVisits fn rest s').1, (foreachVisits fn rest s').2.1,
            e :: (foreachVisits fn rest s').2.2)) ∧
    (∀ (σ : Type) (fn : Entry → σ → σ × Int × Bool) (q : List Entry) (s : σ),
        neverStops fn q s →
        (foreachVisits fn q s).1 = 0 ∧ (foreachVisits fn q s).2.2 = q) ∧
    (∀ (σ : Type) (env : Env) (fn : Entry → σ → σ × Int × Bool) (s : σ)
        (st : PoolState) (cfg : List String),
        st.repos_array = some cfg → st.repolist_initialized = true →
        pool_foreach env fn s st =
          some ((foreachVisits fn st.rpool_queue s).1,
            (foreachVisits fn st.rpool_queue s).2.1, st,
            (foreachVisits fn st.rpool_queue s).2.2)) := by
  refine ⟨?_, ?_, ?_, ?_, ?_⟩
  · intro σ fn e rest s s' rv h
    simp [foreachVisits, h]
  · intro σ fn e rest s s' rv hrv h
    simp [foreachVisits, h, hrv]
  · intro σ fn e rest s s' h
    simp [foreachVisits, h]
  · exact fun σ fn q s h => foreachVisits_complete fn q s h
  · intro σ env fn s st cfg h1 h2
    simp [pool_foreach, pool_init_already env st cfg h1 h2]

/-- Callback that stops with status 11 (setting the done flag) on
"b/noarch" and otherwise continues with status 0, counting invocations
in its context. -/
def fnStop : Entry → Nat → Nat × Int × Bool := fun e s =>
  if e.rpi_uri = "b/noarch" then (s + 1, 11, true) else (s + 1, 0, false)

/-- Witness for C7: over the three-entry registry, the callback that
stops on the second entry is invoked exactly twice and its status 11 is
returned, also through `pool_foreach`. -/
theorem foreach_early_stop_spec_witness :
    fnStop eA 0 = (1, 0, false) ∧ fnStop eB 1 = (2, 11, true) ∧
      foreachVisits fnStop [eA, eB, eC] 0 = (11, 2, [eA, eB]) ∧
      pool_foreach envG fnStop 0 stABC = some (11, 2, stABC, [eA, eB]) := by
  have hb : foreachVisits fnStop [eB, eC] 1 = (11, 2, [eB]) :=
    foreach_early_stop_spec.1 Nat fnStop eB [eC] 1 2 11 (by decide)
  have ha : foreachVisits fnStop [eA, eB, eC] 0 = (11, 2, [eA, eB]) := by
    rw [foreach_early_stop_spec.2.2.1 Nat fnStop eA [eB, eC] 0 1 (by decide), hb]
  have hg := foreach_early_stop_spec.2.2.2.2 Nat envG fnStop 0 stABC
    ["a/noarch", "b/noarch", "c/noarch"] rfl rfl
  refine ⟨by decide, by decide, ha, ?_⟩
  rw [hg]
  simp [show stABC.rpool_queue = [eA, eB, eC] from rfl, ha]

/-- C8: the SIMPLEQ_FOREACH_SAFE traversal pre-fetches the next-entry
reference before invoking the callback, so even when the callback
unlinks and frees the entry it is visiting, every node of the queue is
still visited exactly once, in order — nothing after a removed entry is
skipped or repeated. -/
theorem foreach_safe_removal :
    (∀ (σ : Type) (fn : Entry → σ → σ × Int × Bool × Bool) (q : List RNode)
        (s : σ), neverStopsRem fn q s →
        (foreachSafeRem fn q s).2.2.1 = q.map RNode.nid) ∧
    (∀ (σ : Type) (fn : Entry → σ → σ × Int × Bool × Bool) (q : List RNode)
        (s : σ), neverStopsRem fn q s → (q.map RNode.nid).Nodup →
        ∀ n ∈ q, (foreachSafeRem fn q s).2.2.1.count n.nid = 1) := by
  constructor
  · exact fun σ fn q s h => foreachSafeRem_visits fn q s h
  · intro σ fn q s h hnd n hn
    rw [foreachSafeRem_visits fn q s h]
    exact List.count_eq_one_of_mem hnd (List.mem_map_of_mem RNode.nid hn)

/-- Callback that removes the node it is visiting when that node is
"b/noarch", never stopping the walk. -/
def fnRem : Entry → Nat → Nat × Int × Bool × Bool := fun e s =>
  (s + 1, 0, false, e.rpi_uri = "b/noarch")

/-- The three-node queue for the removal scenario. -/
def q3 : List RNode := [⟨1, eA⟩, ⟨2, eB⟩, ⟨3, eC⟩]

/-- Witness for C8: removing the second of three nodes mid-walk still
visits nodes 1, 2, 3 exactly once each; the final queue holds nodes 1
and 3. -/
theorem foreach_safe_removal_witness :
    (foreachSafeRem fnRem q3 0).2.2.1 = [1, 2, 3] ∧
      ((foreachSafeRem fnRem q3 0).2.2.1.count 2 = 1) ∧
      (foreachSafeRem fnRem q3 0).2.2.2 = [⟨1, eA⟩, ⟨3, eC⟩] := by
  have h1 := foreach_safe_removal.1 Nat fnRem q3 0
    (by refine ⟨rfl, rfl, rfl, rfl, rfl, rfl, trivial⟩)
  have h2 := foreach_safe_removal.2 Nat fnRem q3 0
    (by refine ⟨rfl, rfl, rfl, rfl, rfl, rfl, trivial⟩) (by decide)
    ⟨2, eB⟩ (by decide)
  exact ⟨by simpa [q3] using h1, h2, by decide⟩

/-- C5: the Registry is deduplicated by exact location string (the dedup
scan keeps registered URIs pairwise distinct) and preserves configured
insertion order: `[A, B, A]` yields exactly the entries A then B with
`total = 2`, `missing = 0` (the duplicate skipped before being counted),
and `[A, B, C]` yields Registry order A, B, C, which is also the order
`pool_foreach` visits under any non-stopping callback. -/
theorem registry_dedup_order :
    (∀ (env : Env) (cfg : List String) (q : List Entry) (t m : Nat)
        (q' : List Entry) (t' m' : Nat),
        (q.map Entry.rpi_uri).Nodup →
        initLoop env cfg q t m = .done q' t' m' →
        (q'.map Entry.rpi_uri).Nodup) ∧
      initLoop envG ["a/noarch", "b/noarch", "a/noarch"] [] 0 0 =
        .done [eA, eB] 2 0 ∧
      pool_init envG (st0 ["a/noarch", "b/noarch", "a/noarch"]) =
        some (0, ⟨[eA, eB], true,
          some ["a/noarch", "b/noarch", "a/noarch"], false⟩) ∧
      pool_init envG (st0 ["a/noarch", "b/noarch", "c/noarch"]) =
        some (0, stABC) ∧
      (∀ (σ : Type) (fn : Entry → σ → σ × Int × Bool) (s : σ),
        neverStops fn [eA, eB, eC] s →
        (pool_foreach envG fn s
            (st0 ["a/noarch", "b/noarch", "c/noarch"])).map
            (fun r => r.2.2.2) = some [eA, eB, eC]) := by
  refine ⟨?_, by decide, by decide, by decide, ?_⟩
  · exact fun env cfg q t m q' t' m' hq h =>
      initLoop_nodup env cfg q t m q' t' m' hq h
  · intro σ fn s h
    have hinit : pool_init envG (st0 ["a/noarch", "b/noarch", "c/noarch"]) =
        some (0, stABC) := by decide
    have hvis := (foreachVisits_complete fn [eA, eB, eC] s h).2
    simp only [pool_foreach, hinit]
    simp [show stABC.rpool_queue = [eA, eB, eC] from rfl, hvis]

/-- Witness for C5: the general conjuncts applied at the concrete
three-location runs. -/
theorem registry_dedup_order_witness :
    (([] : List Entry).map Entry.rpi_uri).Nodup ∧
      (([eA, eB].map Entry.rpi_uri).Nodup) ∧
      (pool_foreach envG (fun e s => (e :: s, 0, false))
          ([] : List Entry)
          (st0 ["a/noarch", "b/noarch", "c/noarch"])).map
          (fun r => r.2.2.2) = some [eA, eB, eC] := by
  refine ⟨by decide, ?_, ?_⟩
  · exact registry_dedup_order.1 envG ["a/noarch", "b/noarch", "a/noarch"]
      [] 0 0 [eA, eB] 2 0 (by decide) (by decide)
  · exact registry_dedup_order.2.2.2.2 (List Entry)
      (fun e s => (e :: s, 0, false)) []
      ⟨rfl, rfl, rfl, rfl, rfl, rfl, trivial⟩

/-- C3: the per-location versus build-fatal classification.  Recoverable
(counter incremented, location skipped, loop continues): architecture
mismatch, fetch failure, "not found" deserialization.  Fatal (loop
aborts with the collaborator's errno): local-path resolution failure,
either allocation failure, URI duplication failure, any non-"not found"
deserialization failure; failure to obtain the configuration iterator
aborts `pool_init` likewise, and a fatal loop exit propagates its errno
to `pool_init`'s caller. -/
theorem failure_classification :
    (∀ (env : Env) (uri : String) (rest : List String) (q : List Entry)
        (t m : Nat), isDupRepo q uri = false →
        check_repo_arch env.hostArch uri = false →
        initLoop env (uri :: rest) q t m = initLoop env rest q (t + 1) (m + 1)) ∧
    (∀ (env : Env) (uri plist : String) (rest : List String) (q : List Entry)
        (t m : Nat), isDupRepo q uri = false →
        check_repo_arch env.hostArch uri = true →
        env.plistOf uri = .ok plist → env.syncOk plist uri = false →
        initLoop env (uri :: rest) q t m = initLoop env rest q (t + 1) (m + 1)) ∧
    (∀ (env : Env) (uri plist : String) (rest : List String) (q : List Entry)
        (t m : Nat), isDupRepo q uri = false →
        check_repo_arch env.hostArch uri = true →
        env.plistOf uri = .ok plist → env.syncOk plist uri = true →
        env.mallocRpool uri = .ok () → env.mallocRpi uri = .ok () →
        env.dupUri uri = .ok () → env.internalize plist = .error ENOENT →
        initLoop env (uri :: rest) q t m = initLoop env rest q (t + 1) (m + 1)) ∧
    (∀ (env : Env) (uri : String) (rest : List String) (q : List Entry)
        (t m : Nat) (e : Int), isDupRepo q uri = false →
        check_repo_arch env.hostArch uri = true →
        env.plistOf uri = .error e →
        initLoop env (uri :: rest) q t m = .fatal e q) ∧
    (∀ (env : Env) (uri plist : String) (rest : List String) (q : List Entry)
        (t m : Nat) (e : Int), isDupRepo q uri = false →
        check_repo_arch env.hostArch uri = true →
        env.plistOf uri = .ok plist → env.syncOk plist uri = true →
        env.mallocRpool uri = .error e →
        initLoop env (uri :: rest) q t m = .fatal e q) ∧
    (∀ (env : Env) (uri plist : String) (rest : List String) (q : List Entry)
        (t m : Nat) (e : Int), isDupRepo q uri = false →
        check_repo_arch env.hostArch uri = true →
        env.plistOf uri = .ok plist → env.syncOk plist uri = true →
        env.mallocRpool uri = .ok () → env.mallocRpi uri = .error e →
        initLoop env (uri :: rest) q t m = .fatal e q) ∧
    (∀ (env : Env) (uri plist : String) (rest : List String) (q : List Entry)
        (t m : Nat) (e : Int), isDupRepo q uri = false →
        check_repo_arch env.hostArch uri = true →
        env.plistOf uri = .ok plist → env.syncOk plist uri = true →
        env.mallocRpool uri = .ok () → env.mallocRpi uri = .ok () →
        env.dupUri uri = .error e →
        initLoop env (uri :: rest) q t m = .fatal e q) ∧
    (∀ (env : Env) (uri plist : String) (rest : List String) (q : List Entry)
        (t m : Nat) (e : Int), isDupRepo q uri = false →
        check_repo_arch env.hostArch uri = true →
        env.plistOf uri = .ok plist → env.syncOk plist uri = true →
        env.mallocRpool uri = .ok () → env.mallocRpi uri = .ok () →
        env.dupUri uri = .ok () → env.internalize plist = .error e →
        e ≠ ENOENT →
        initLoop env (uri :: rest) q t m = .fatal e q) ∧
    (∀ (env : Env) (st : PoolState) (cfg : List String) (e : Int),
        st.repos_array = some cfg → st.repolist_initialized = false →
        st.repos_live = true → ¬cfg.length = 0 → env.iter = .error e →
        pool_init env st = some (e, pool_release st)) ∧
    (∀ (env : Env) (st : PoolState) (cfg : List String) (e : Int)
        (q' : List Entry),
        st.repos_array = some cfg → st.repolist_initialized = false →
        st.repos_live = true → ¬cfg.length = 0 → env.iter = .ok () →
        initLoop env cfg st.rpool_queue 0 0 = .fatal e q' →
        pool_init env st = some (e, pool_release { st with rpool_queue := q' })) := by
  refine ⟨?_, ?_, ?_, ?_, ?_, ?_, ?_, ?_, ?_, ?_⟩
  · intro env uri rest q t m h1 h2
    simp [initLoop, h1, h2]
  · intro env uri plist rest q t m h1 h2 h3 h4
    simp [initLoop, h1, h2, h3, h4]
  · intro env uri plist rest q t m h1 h2 h3 h4 h5 h6 h7 h8
    simp [initLoop, h1, h2, h3, h4, h5, h6, h7, h8]
  · intro env uri rest q t m e h1 h2 h3
    simp [initLoop, h1, h2, h3]
  · intro env uri plist rest q t m e h1 h2 h3 h4 h5
    simp [initLoop, h1, h2, h3, h4, h5]
  · intro env uri plist rest q t m e h1 h2 h3 h4 h5 h6
    simp [initLoop, h1, h2, h3, h4, h5, h6]
  · intro env uri plist rest q t m e h1 h2 h3 h4 h5 h6 h7
    simp [initLoop, h1, h2, h3, h4, h5, h6, h7]
  · intro env uri plist rest q t m e h1 h2 h3 h4 h5 h6 h7 h8 h9
    simp [initLoop, h1, h2, h3, h4, h5, h6, h7, h8, h9]
  · intro env st cfg e h1 h2 h3 h4 h5
    simp [pool_init, h1, h2, h3, h4, h5]
  · intro env st cfg e q' h1 h2 h3 h4 h5 h6
    simp [pool_init, h1, h2, h3, h4, h5, h6]

/-- A collaborator environment exhibiting one failure mode per location:
"u1" unfetchable, "u2" with missing index, "u3" with failing path
resolution, "u4"/"u5" with failing allocations, "u6" with failing URI
duplication, "u7" with a corrupt (EIO) index; everything else succeeds. -/
def envW : Env where
  hostArch := "x86"
  plistOf := fun u => if u = "u3/noarch" then .error 12 else .ok (u ++ ".p")
  syncOk := fun p _ => if p = "u1/noarch.p" then false else true
  mallocRpool := fun u => if u = "u4/noarch" then .error 12 else .ok ()
  mallocRpi := fun u => if u = "u5/noarch" then .error 12 else .ok ()
  dupUri := fun u => if u = "u6/noarch" then .error 12 else .ok ()
  internalize := fun p =>
    if p = "u2/noarch.p" then .error ENOENT
    else if p = "u7/noarch.p" then .error 5 else .ok 7
  iter := .ok ()

/-- Collaborators whose configuration-iterator acquisition fails with
errno 13. -/
def envWiter : Env := { envG with iter := .error 13 }

/-- Witness for C3: each classification branch exercised on a concrete
location. -/
theorem failure_classification_witness :
    initLoop envW ["u0"] [] 0 0 = initLoop envW [] [] 1 1 ∧
      initLoop envW ["u1/noarch"] [] 0 0 = initLoop envW [] [] 1 1 ∧
      initLoop envW ["u2/noarch"] [] 0 0 = initLoop envW [] [] 1 1 ∧
      initLoop envW ["u3/noarch"] [] 0 0 = .fatal 12 [] ∧
      initLoop envW ["u4/noarch"] [] 0 0 = .fatal 12 [] ∧
      initLoop envW ["u5/noarch"] [] 0 0 = .fatal 12 [] ∧
      initLoop envW ["u6/noarch"] [] 0 0 = .fatal 12 [] ∧
      initLoop envW ["u7/noarch"] [] 0 0 = .fatal 5 [] ∧
      pool_init envWiter (st0 ["a/noarch"]) =
        some (13, pool_release (st0 ["a/noarch"])) ∧
      pool_init envW (st0 ["u7/noarch"]) =
        some (5, pool_release { st0 ["u7/noarch"] with rpool_queue := [] }) :=
  ⟨failure_classification.1 envW "u0" [] [] 0 0 (by decide) (by decide),
   failure_classification.2.1 envW "u1/noarch" "u1/noarch.p" [] [] 0 0
     (by decide) (by decide) rfl (by decide),
   failure_classification.2.2.1 envW "u2/noarch" "u2/noarch.p" [] [] 0 0
     (by decide) (by decide) rfl (by decide) rfl rfl rfl rfl,
   failure_classification.2.2.2.1 envW "u3/noarch" [] [] 0 0 12
     (by decide) (by decide) rfl,
   failure_classification.2.2.2.2.1 envW "u4/noarch" "u4/noarch.p" [] [] 0 0 12
     (by decide) (by decide) rfl (by decide) rfl,
   failure_classification.2.2.2.2.2.1 envW "u5/noarch" "u5/noarch.p" [] [] 0 0 12
     (by decide) (by decide) rfl (by decide) rfl rfl,
   failure_classification.2.2.2.2.2.2.1 envW "u6/noarch" "u6/noarch.p" [] [] 0 0 12
     (by decide) (by decide) rfl (by decide) rfl rfl rfl,
   failure_classification.2.2.2.2.2.2.2.1 envW "u7/noarch" "u7/noarch.p" [] [] 0 0 5
     (by decide) (by decide) rfl (by decide) rfl rfl rfl rfl (by decide),
   failure_classification.2.2.2.2.2.2.2.2.1 envWiter (st0 ["a/noarch"])
     ["a/noarch"] 13 rfl rfl rfl (by decide) rfl,
   failure_classification.2.2.2.2.2.2.2.2.2 envW (st0 ["u7/noarch"])
     ["u7/noarch"] 5 [] rfl rfl rfl (by decide) rfl (by decide)⟩

/-- C1, divergence: after the fatal (non-ENOENT) deserialization failure
on the third of four architecture-matching locations, build() returns
the error (5), but the cleanup at the error exit is a no-op — release()
bails out because `repolist_initialized` is still false — so the two
entries registered before the failure remain queued instead of the
Registry being empty. -/
theorem fatal_abort_dirty_registry :
    pool_init envC1 (st0 cfg4) = some (5, stBad) ∧
      stBad.rpool_queue = [eA, eB] ∧ stBad.rpool_queue ≠ [] ∧
      pool_release stBad = stBad := by
  refine ⟨by decide, by decide, by decide, by decide⟩

/-- C2, divergence: the flag/emptiness invariant does not survive a
fatal build abort — build() terminates in a state whose initialized flag
is false while two entries remain registered, so "flag is false iff the
Registry is empty" fails there. -/
theorem invariant_flag_emptiness_broken :
    pool_init envC1 (st0 cfg4) = some (5, stBad) ∧
      ¬(stBad.repolist_initialized = false ↔ stBad.rpool_queue = []) := by
  refine ⟨by decide, by decide⟩

end RepoPool
